import Mathlib

/-!
Verification of the Connect-4 (Forza 4) session server in `src/server/server.c`.

The model is a shallow embedding of the game and session logic:

* the 6×7 grid (`char grid[GRID_ROWS][GRID_COLS]`) becomes a function
  `Fin 6 → Fin 7 → Cell`;
* C `int` identifiers, columns and result codes become `Int` (the values
  involved are tiny, so no wrap-around modelling is needed);
* the linked list of join requests becomes a `List JoinRequest`
  (new requests are pushed at the head, as in the C code);
* the fixed global arrays `games[MAX_GAMES]` and `clients[MAX_CLIENTS]`
  become lists of slots; the list length plays the role of the array
  capacity constants, so theorems quantified over all lists in particular
  cover the 50/100-slot arrays of the C code;
* each C function that mutates shared state becomes a pure function from
  a `ServerState` to a result code paired with the updated state, following
  the C control flow statement by statement (the mutex operations and all
  `send`/`printf` calls are erased: they do not touch the modelled state).
-/

namespace Forza4

/-- Grid dimensions, `GRID_ROWS`/`GRID_COLS` in the C source. -/
abbrev GRID_ROWS : Nat := 6
abbrev GRID_COLS : Nat := 7

/-- Cell values: `EMPTY '.'`, `PLAYER1 'X'`, `PLAYER2 'O'`. -/
inductive Cell where
  | empty
  | player1
  | player2
deriving DecidableEq, Repr

/-- The board, `char grid[GRID_ROWS][GRID_COLS]`. -/
abbrev Grid := Fin 6 → Fin 7 → Cell

/-- Bounds-checked read of `game->grid[r][c]` at signed indices, as done by
`check_direction` (`r < 0 || r >= GRID_ROWS || c < 0 || c >= GRID_COLS`).
Returns `none` outside the grid. -/
def gridGet (g : Grid) (r c : Int) : Option Cell :=
  if h : 0 ≤ r ∧ r < 6 ∧ 0 ≤ c ∧ c < 7 then
    some (g ⟨r.toNat, by omega⟩ ⟨c.toNat, by omega⟩)
  else
    none

/-- Write one cell, modelling the single assignment `game->grid[r][col] = piece`. -/
def setCell (g : Grid) (r : Fin 6) (c : Fin 7) (v : Cell) : Grid :=
  fun r' c' => if r' = r ∧ c' = c then v else g r' c'

/-- Source `init_grid`: sets every cell to `EMPTY`. -/
def init_grid : Grid := fun _ _ => Cell.empty

/-- The row scan of `drop_piece`: `for (r = GRID_ROWS-1; r >= 0; r--)`,
returning the first row from the bottom whose cell in column `c` is empty. -/
def lowestEmpty (g : Grid) (c : Fin 7) : Option (Fin 6) :=
  (List.finRange 6).reverse.find? (fun r => g r c == Cell.empty)

/-- Source `drop_piece(game, col, piece)`: returns the landing row and the updated
grid, or `-1` (column out of range, or no empty cell) with the grid unchanged. -/
def drop_piece (g : Grid) (col : Int) (piece : Cell) : Int × Grid :=
  if h : 0 ≤ col ∧ col < 7 then
    let c : Fin 7 := ⟨col.toNat, by omega⟩
    match lowestEmpty g c with
    | some r => ((r : Nat), setCell g r c piece)
    | none => (-1, g)
  else
    (-1, g)

/-- The loop body of `check_direction`: starting at `(r, c)` and stepping by
`(dr, dc)`, count consecutive in-bounds cells equal to `piece`, stopping at the
first mismatch or out-of-bounds cell, for at most `n` steps (`n = 4` in C). -/
def countRun (g : Grid) (piece : Cell) (dr dc : Int) : Int → Int → Nat → Nat
  | _, _, 0 => 0
  | r, c, n + 1 =>
    if gridGet g r c = some piece then countRun g piece dr dc (r + dr) (c + dc) n + 1
    else 0

/-- Source `check_direction(game, row, col, dr, dc, piece)`: `count >= 4`. -/
def check_direction (g : Grid) (row col dr dc : Int) (piece : Cell) : Bool :=
  decide (4 ≤ countRun g piece dr dc row col 4)

/-- Source `check_winner(game, piece)`: scans every cell as origin and the four
one-sided directions east `(0,1)`, south `(1,0)`, south-east `(1,1)`,
south-west `(1,-1)`. -/
def check_winner (g : Grid) (piece : Cell) : Bool :=
  (List.finRange 6).any fun r =>
    (List.finRange 7).any fun c =>
      check_direction g (r : Nat) (c : Nat) 0 1 piece ||
      check_direction g (r : Nat) (c : Nat) 1 0 piece ||
      check_direction g (r : Nat) (c : Nat) 1 1 piece ||
      check_direction g (r : Nat) (c : Nat) 1 (-1) piece

/-- Source `is_grid_full(game)`: true iff the top row has no empty cell. -/
def is_grid_full (g : Grid) : Bool :=
  (List.finRange 7).all fun c => !(g 0 c == Cell.empty)

/-! ### Sessions and registries -/

/-- Source `GameState` from the C source. -/
inductive GameState where
  | GAME_CREATED
  | GAME_WAITING
  | GAME_IN_PROGRESS
  | GAME_FINISHED
deriving DecidableEq, Repr

/-- Source `struct JoinRequest`: `processed` is `0` = pending, `1` = accepted,
`-1` = rejected. The `next` pointer becomes list structure. -/
structure JoinRequest where
  requester_id : Int
  processed : Int
deriving DecidableEq, Repr

/-- Source `struct Client`, keeping the fields the modelled code reads or writes
(`socket`, `address` and `thread` are opaque I/O handles of the excluded
networking layer). -/
structure Client where
  id : Int
  username : String
  is_connected : Bool
  current_game_id : Int
deriving DecidableEq, Repr

/-- Source `struct Game`, without the mutex (locking serialises the operations;
the model is the sequential behaviour under the lock). -/
structure Game where
  id : Int
  grid : Grid
  state : GameState
  creator_id : Int
  opponent_id : Int
  current_turn : Int
  winner_id : Int
  is_active : Bool
  join_requests : List JoinRequest
deriving DecidableEq

/-- The global mutable state: `games[MAX_GAMES]`, `clients[MAX_CLIENTS]`
and `game_count`.  The lists model the fixed arrays slot by slot, with the
list length in the role of the capacity constants. -/
structure ServerState where
  games : List Game
  clients : List Client
  game_count : Int
deriving DecidableEq

/-- Source `get_client_by_id`: first slot scan order match among connected clients. -/
def get_client_by_id (clients : List Client) (client_id : Int) : Option Client :=
  clients.find? (fun c => c.is_connected && c.id == client_id)

/-- The update pattern `Client *x = get_client_by_id(id); if (x)
x->current_game_id = gid;`: writes through the pointer to the first
connected slot with this id, leaving everything else untouched. -/
def set_current_game : List Client → Int → Int → List Client
  | [], _, _ => []
  | c :: rest, client_id, gid =>
    if c.is_connected && c.id == client_id then
      { c with current_game_id := gid } :: rest
    else
      c :: set_current_game rest client_id gid

/-- Source `get_game_by_id`: `NULL` if the id is out of range or the slot inactive. -/
def get_game_by_id (s : ServerState) (game_id : Int) : Option Game :=
  if h : 0 ≤ game_id ∧ game_id.toNat < s.games.length then
    let g := s.games.get ⟨game_id.toNat, h.2⟩
    if g.is_active then some g else none
  else
    none

/-- Store an updated game back into its slot. -/
def setGame (s : ServerState) (game_id : Int) (g : Game) : ServerState :=
  { s with games := s.games.set game_id.toNat g }

/-- Source `add_join_request(game_id, requester_id)`:
`-1` no such game, `-2` not waiting, `-3` self join, `-4` duplicate pending
request, `0` ok (new pending request pushed at the head of the list). -/
def add_join_request (s : ServerState) (game_id requester_id : Int) :
    Int × ServerState :=
  match get_game_by_id s game_id with
  | none => (-1, s)
  | some game =>
    if game.state ≠ GameState.GAME_WAITING then (-2, s)
    else if game.creator_id == requester_id then (-3, s)
    else if game.join_requests.any
        (fun q => q.requester_id == requester_id && q.processed == 0) then
      (-4, s)
    else
      (0, setGame s game_id
        { game with join_requests := ⟨requester_id, 0⟩ :: game.join_requests })

/-- The search-and-mark loop of `process_join_request`: find the first
pending request from `requester_id` and set its `processed` field to `v`;
`none` when no pending request from this requester exists. -/
def mark_request : List JoinRequest → Int → Int → Option (List JoinRequest)
  | [], _, _ => none
  | q :: rest, requester_id, v =>
    if q.requester_id == requester_id && q.processed == 0 then
      some ({ q with processed := v } :: rest)
    else
      (mark_request rest requester_id v).map (q :: ·)

/-- Source `process_join_request(game_id, requester_id, accept)`:
`-1` no such game, `-2` not waiting, `-3` request not found, `0` ok.
On accept it also sets `opponent_id`, moves the state to in-progress, gives
the creator the turn, and records the game id on the opponent's client slot. -/
def process_join_request (s : ServerState) (game_id requester_id : Int)
    (accept : Bool) : Int × ServerState :=
  match get_game_by_id s game_id with
  | none => (-1, s)
  | some game =>
    if game.state ≠ GameState.GAME_WAITING then (-2, s)
    else
      match mark_request game.join_requests requester_id (if accept then 1 else -1) with
      | none => (-3, s)
      | some reqs =>
        if accept then
          let s₁ := setGame s game_id
            { game with
              join_requests := reqs
              opponent_id := requester_id
              state := GameState.GAME_IN_PROGRESS
              current_turn := game.creator_id }
          (0, { s₁ with clients := set_current_game s₁.clients requester_id game_id })
        else
          (0, setGame s game_id { game with join_requests := reqs })

/-- Source `make_move(game_id, player_id, column)`:
`-1` no such game, `-2` not in progress, `-3` not this player's turn,
`-4` invalid column / column full, `0` move made. -/
def make_move (s : ServerState) (game_id player_id column : Int) :
    Int × ServerState :=
  match get_game_by_id s game_id with
  | none => (-1, s)
  | some game =>
    if game.state ≠ GameState.GAME_IN_PROGRESS then (-2, s)
    else if game.current_turn ≠ player_id then (-3, s)
    else
      let piece := if player_id == game.creator_id then Cell.player1 else Cell.player2
      let rg := drop_piece game.grid column piece
      if rg.1 < 0 then (-4, s)
      else
        let game' :=
          if check_winner rg.2 piece then
            { game with grid := rg.2, winner_id := player_id,
                        state := GameState.GAME_FINISHED }
          else if is_grid_full rg.2 then
            { game with grid := rg.2, winner_id := -1,
                        state := GameState.GAME_FINISHED }
          else
            { game with grid := rg.2,
                        current_turn := if player_id == game.creator_id then
                          game.opponent_id else game.creator_id }
        (0, setGame s game_id game')

/-- Source `cleanup_game(game_id)`: frees the join requests, clears every client
slot pointing at this game, and marks the slot inactive. -/
def cleanup_game (s : ServerState) (game_id : Int) : ServerState :=
  match get_game_by_id s game_id with
  | none => s
  | some game =>
    let s₁ := setGame s game_id { game with join_requests := [], is_active := false }
    { s₁ with
      clients := s₁.clients.map fun c =>
        if c.current_game_id == game_id then { c with current_game_id := -1 } else c
      game_count := s₁.game_count - 1 }

/-- Source `reset_game_for_rematch(game_id)`: fresh grid, state back to in-progress,
winner cleared, and the first mover swapped from the current `current_turn`. -/
def reset_game_for_rematch (s : ServerState) (game_id : Int) : ServerState :=
  match get_game_by_id s game_id with
  | none => s
  | some game =>
    setGame s game_id
      { game with
        grid := init_grid
        state := GameState.GAME_IN_PROGRESS
        winner_id := 0
        current_turn := if game.current_turn == game.creator_id then
          game.opponent_id else game.creator_id }

/-- Source `handle_leave(client)`, state changes only (all `send` calls erased).
The handler runs on the thread owning the client slot, found here by id.
If the game is in progress the other participant is recorded as winner and
the game finished; the leaving client's game pointer is cleared; finally,
when the slot's state (re-read, as the C code re-reads `game->state`) is
finished or waiting, the game is cleaned up. -/
def handle_leave (s : ServerState) (client_id : Int) : ServerState :=
  match get_client_by_id s.clients client_id with
  | none => s
  | some client =>
    if client.current_game_id < 0 then s
    else
      let gid := client.current_game_id
      match get_game_by_id s gid with
      | none => { s with clients := set_current_game s.clients client_id (-1) }
      | some game =>
        let s₁ :=
          if game.state = GameState.GAME_IN_PROGRESS then
            let opponent_id := if client_id == game.creator_id then
              game.opponent_id else game.creator_id
            setGame s gid
              { game with winner_id := opponent_id, state := GameState.GAME_FINISHED }
          else s
        let s₂ := { s₁ with clients := set_current_game s₁.clients client_id (-1) }
        match s₂.games.get? gid.toNat with
        | none => s₂
        | some g₂ =>
          if g₂.state = GameState.GAME_FINISHED ∨ g₂.state = GameState.GAME_WAITING then
            cleanup_game s₂ gid
          else s₂

/-- Source `handle_rematch(client)`, state changes only.  The C code sends one error
message for the merged condition `!game || game->state != GAME_FINISHED`;
both branches return `-2` here, reached exactly as in the source.
`-1` is the not-in-a-game path, `0` the successful reset. -/
def handle_rematch (s : ServerState) (client_id : Int) : Int × ServerState :=
  match get_client_by_id s.clients client_id with
  | none => (-1, s)
  | some client =>
    if client.current_game_id < 0 then (-1, s)
    else
      match get_game_by_id s client.current_game_id with
      | none => (-2, s)
      | some game =>
        if game.state ≠ GameState.GAME_FINISHED then (-2, s)
        else (0, reset_game_for_rematch s client.current_game_id)

/-! ### Basic lemmas about the registries -/

theorem get_game_by_id_some {s : ServerState} {gid : Int} {g : Game}
    (h : get_game_by_id s gid = some g) :
    0 ≤ gid ∧ ∃ hl : gid.toNat < s.games.length,
      s.games.get ⟨gid.toNat, hl⟩ = g ∧ g.is_active = true := by
  unfold get_game_by_id at h
  split at h
  case isTrue hb =>
    dsimp only at h
    split at h
    case isTrue ha =>
      injection h with h
      exact ⟨hb.1, hb.2, h, h ▸ ha⟩
    case isFalse => exact absurd h (by simp)
  case isFalse => exact absurd h (by simp)

theorem get_game_by_id_setGame_self {s : ServerState} {gid : Int}
    (h0 : 0 ≤ gid) (hl : gid.toNat < s.games.length) (g' : Game) :
    get_game_by_id (setGame s gid g') gid =
      if g'.is_active then some g' else none := by
  unfold get_game_by_id setGame
  simp only [List.length_set]
  rw [dif_pos ⟨h0, hl⟩]
  simp [List.getElem_set_self]

/-! ### Claim C9 -/

/-- Claim C9: whenever `make_move` returns one of the error codes `-2`
(NotInProgress), `-3` (TurnViolation) or `-4` (InvalidColumn), the whole
server state — in particular the addressed session's grid, state, current
turn, winner, opponent and join-request list — is exactly its pre-call
value. -/
theorem make_move_error_preserves (s : ServerState)
    (game_id player_id column r : Int) (s' : ServerState)
    (hcall : make_move s game_id player_id column = (r, s'))
    (herr : r = -2 ∨ r = -3 ∨ r = -4) : s' = s := by
  unfold make_move at hcall
  cases hget : get_game_by_id s game_id with
  | none =>
    rw [hget] at hcall
    injection hcall with h1 h2
    exact h2.symm
  | some g =>
    rw [hget] at hcall
    dsimp only at hcall
    split at hcall
    · injection hcall with h1 h2; exact h2.symm
    · split at hcall
      · injection hcall with h1 h2; exact h2.symm
      · split at hcall <;>
        · split at hcall
          · injection hcall with h1 h2; exact h2.symm
          · injection hcall with h1 h2
            exfalso
            rcases herr with h | h | h <;> omega

/-- Session used by the Claim C9 witness: game 0 in progress, creator 1,
opponent 2, creator to move. -/
def c9_game : Game :=
  { id := 0
    grid := init_grid
    state := GameState.GAME_IN_PROGRESS
    creator_id := 1
    opponent_id := 2
    current_turn := 1
    winner_id := 0
    is_active := true
    join_requests := [] }

def c9_state : ServerState := ⟨[c9_game], [], 1⟩

/-- Claim C9 witness: player 2 moving out of turn gets `-3` and the state is
unchanged. -/
theorem make_move_error_preserves_witness :
    make_move c9_state 0 2 3 = (-3, c9_state) ∧
    ((-3 : Int) = -2 ∨ (-3 : Int) = -3 ∨ (-3 : Int) = -4) ∧
    c9_state = c9_state :=
  ⟨by decide, by decide,
    make_move_error_preserves c9_state 0 2 3 (-3) c9_state (by decide) (by decide)⟩

/-! ### Claim C5 -/

/-- Session used by the Claim C5 counterexample: game 0 in progress,
creator 1. -/
def c5_game : Game :=
  { id := 0
    grid := init_grid
    state := GameState.GAME_IN_PROGRESS
    creator_id := 1
    opponent_id := 2
    current_turn := 1
    winner_id := 0
    is_active := true
    join_requests := [] }

def c5_state : ServerState := ⟨[c5_game], [], 1⟩

/-- Claim C5 counterexample: on an active InProgress session, a join request
by the creator returns `-2` (NotWaiting), not `-3` (SelfJoin) — the
`state != GAME_WAITING` check precedes the self-join check, so SelfJoin is
not produced "for every session state". -/
theorem add_join_request_selfjoin_counterexample :
    (add_join_request c5_state 0 1).1 = -2 ∧
    (add_join_request c5_state 0 1).1 ≠ -3 := by
  decide

/-- Claim C5 (amended): a join request by the creator fails with SelfJoin
when the session is in state Waiting; in every other state the call fails
with NotWaiting regardless of the requester, because the state check comes
first. -/
theorem add_join_request_selfjoin_amended (s : ServerState)
    (game_id rid : Int) (g : Game)
    (hget : get_game_by_id s game_id = some g) :
    (g.state = GameState.GAME_WAITING → g.creator_id = rid →
      add_join_request s game_id rid = (-3, s)) ∧
    (g.state ≠ GameState.GAME_WAITING →
      add_join_request s game_id rid = (-2, s)) := by
  constructor
  · intro hw hc
    unfold add_join_request
    rw [hget]
    dsimp only
    rw [if_neg (by simp [hw]), if_pos (by simp [hc])]
  · intro hnw
    unfold add_join_request
    rw [hget]
    dsimp only
    rw [if_pos hnw]

/-- Session used by the Claim C5 amended witness: game 0 waiting,
creator 1. -/
def c5w_game : Game :=
  { id := 0
    grid := init_grid
    state := GameState.GAME_WAITING
    creator_id := 1
    opponent_id := -1
    current_turn := 1
    winner_id := 0
    is_active := true
    join_requests := [] }

def c5w_state : ServerState := ⟨[c5w_game], [], 1⟩

/-- Claim C5 amended witness, at a Waiting session with requester = creator. -/
theorem add_join_request_selfjoin_amended_witness :
    get_game_by_id c5w_state 0 = some c5w_game ∧
    ((c5w_game.state = GameState.GAME_WAITING → c5w_game.creator_id = 1 →
       add_join_request c5w_state 0 1 = (-3, c5w_state)) ∧
     (c5w_game.state ≠ GameState.GAME_WAITING →
       add_join_request c5w_state 0 1 = (-2, c5w_state))) :=
  ⟨by decide, add_join_request_selfjoin_amended c5w_state 0 1 c5w_game (by decide)⟩


/-! ### Claim C2 -/

/-- Claim C2: in an InProgress session on the mover's turn, a `make_move`
call that returns Continues (result `0` with the session still InProgress)
leaves `current_turn` different from its pre-call value and equal to the
other participant: the opponent if the mover is the creator, the creator
otherwise. -/
theorem make_move_continues_toggles_turn (s : ServerState)
    (game_id player_id column : Int) (g g' : Game) (s' : ServerState)
    (hget : get_game_by_id s game_id = some g)
    (hstate : g.state = GameState.GAME_IN_PROGRESS)
    (hturn : g.current_turn = player_id)
    (hdistinct : g.creator_id ≠ g.opponent_id)
    (hcall : make_move s game_id player_id column = (0, s'))
    (hget2 : get_game_by_id s' game_id = some g')
    (hcont : g'.state = GameState.GAME_IN_PROGRESS) :
    g'.current_turn ≠ g.current_turn ∧
    g'.current_turn =
      if player_id = g.creator_id then g.opponent_id else g.creator_id := by
  obtain ⟨h0, hl, hslot, hact⟩ := get_game_by_id_some hget
  unfold make_move at hcall
  rw [hget] at hcall
  dsimp only at hcall
  rw [if_neg (by simp [hstate])] at hcall
  rw [if_neg (by simp [hturn])] at hcall
  by_cases hpc : player_id = g.creator_id
  · simp only [hpc, beq_self_eq_true, if_true, beq_iff_eq] at hcall
    split at hcall
    · injection hcall with h1 h2
      exact absurd h1 (by decide)
    · split at hcall
      · injection hcall with h1 h2
        subst h2
        rw [get_game_by_id_setGame_self h0 hl] at hget2
        simp only [hact, if_true, Option.some.injEq] at hget2
        subst hget2
        simp at hcont
      · split at hcall
        · injection hcall with h1 h2
          subst h2
          rw [get_game_by_id_setGame_self h0 hl] at hget2
          simp only [hact, if_true, Option.some.injEq] at hget2
          subst hget2
          simp at hcont
        · injection hcall with h1 h2
          subst h2
          rw [get_game_by_id_setGame_self h0 hl] at hget2
          simp only [hact, if_true, Option.some.injEq] at hget2
          subst hget2
          refine ⟨?_, ?_⟩
          · dsimp only
            rw [hturn, hpc]
            exact fun hEq => hdistinct hEq.symm
          · dsimp only
            rw [if_pos hpc]
  · simp only [beq_iff_eq, if_neg hpc] at hcall
    split at hcall
    · injection hcall with h1 h2
      exact absurd h1 (by decide)
    · split at hcall
      · injection hcall with h1 h2
        subst h2
        rw [get_game_by_id_setGame_self h0 hl] at hget2
        simp only [hact, if_true, Option.some.injEq] at hget2
        subst hget2
        simp at hcont
      · split at hcall
        · injection hcall with h1 h2
          subst h2
          rw [get_game_by_id_setGame_self h0 hl] at hget2
          simp only [hact, if_true, Option.some.injEq] at hget2
          subst hget2
          simp at hcont
        · injection hcall with h1 h2
          subst h2
          rw [get_game_by_id_setGame_self h0 hl] at hget2
          simp only [hact, if_true, Option.some.injEq] at hget2
          subst hget2
          refine ⟨?_, ?_⟩
          · dsimp only
            rw [hturn]
            exact fun hEq => hpc hEq.symm
          · dsimp only
            rw [if_neg hpc]

/-- Session used by the Claim C2 witness. -/
def c2_game : Game :=
  { id := 0
    grid := init_grid
    state := GameState.GAME_IN_PROGRESS
    creator_id := 1
    opponent_id := 2
    current_turn := 1
    winner_id := 0
    is_active := true
    join_requests := [] }

def c2_state : ServerState := ⟨[c2_game], [], 1⟩

/-- The state after the witness move, and the session read back from it. -/
def c2_after : ServerState := (make_move c2_state 0 1 3).2

def c2_game2 : Game := (get_game_by_id c2_after 0).getD c2_game

/-- Claim C2 witness: creator 1 drops in column 3; the turn passes to 2. -/
theorem make_move_continues_toggles_turn_witness :
    get_game_by_id c2_state 0 = some c2_game ∧
    c2_game.state = GameState.GAME_IN_PROGRESS ∧
    c2_game.current_turn = 1 ∧
    c2_game.creator_id ≠ c2_game.opponent_id ∧
    make_move c2_state 0 1 3 = (0, c2_after) ∧
    get_game_by_id c2_after 0 = some c2_game2 ∧
    c2_game2.state = GameState.GAME_IN_PROGRESS ∧
    (c2_game2.current_turn ≠ c2_game.current_turn ∧
      c2_game2.current_turn =
        if (1 : Int) = c2_game.creator_id then c2_game.opponent_id
        else c2_game.creator_id) :=
  ⟨by decide, by decide, by decide, by decide, by decide, by decide, by decide,
    make_move_continues_toggles_turn c2_state 0 1 3 c2_game c2_game2 c2_after
      (by decide) (by decide) (by decide) (by decide) (by decide) (by decide)
      (by decide)⟩


/-! ### Claim C1 -/

/-- Reading a game is unaffected by replacing the client table. -/
theorem get_game_by_id_set_clients (s : ServerState) (cls : List Client)
    (gid : Int) :
    get_game_by_id { s with clients := cls } gid = get_game_by_id s gid := rfl

/-- Looking up a client after `set_current_game` for that same id returns the
same slot with the game pointer updated (the scan predicates coincide). -/
theorem get_client_set_current_game (cls : List Client) (cid gid : Int) :
    get_client_by_id (set_current_game cls cid gid) cid =
      (get_client_by_id cls cid).map (fun c => { c with current_game_id := gid }) := by
  induction cls with
  | nil => rfl
  | cons c rest ih =>
    unfold set_current_game get_client_by_id
    by_cases h : (c.is_connected && c.id == cid) = true
    · rw [if_pos h]
      simp [List.find?_cons, h]
    · have hb : (c.is_connected && c.id == cid) = false := by simpa using h
      rw [if_neg h]
      simp only [List.find?_cons, hb, cond_false]
      exact ih

/-- When some pending request from `rid` is in the list, the search-and-mark
loop of `process_join_request` finds one. -/
theorem mark_request_isSome {l : List JoinRequest} {rid : Int}
    (h : ∃ q ∈ l, q.requester_id = rid ∧ q.processed = 0) (v : Int) :
    ∃ l', mark_request l rid v = some l' := by
  induction l with
  | nil =>
    rcases h with ⟨q, hq, _⟩
    cases hq
  | cons q rest ih =>
    unfold mark_request
    by_cases hq : (q.requester_id == rid && q.processed == 0) = true
    · exact ⟨_, by rw [if_pos hq]⟩
    · rcases h with ⟨p, hp, hpr⟩
      rcases List.mem_cons.mp hp with rfl | hmem
      · exact absurd (by simp [hpr.1, hpr.2]) hq
      · obtain ⟨l', hl'⟩ := ih ⟨p, hmem, hpr⟩
        exact ⟨q :: l', by rw [if_neg hq, hl']; rfl⟩

/-- Claim C1: accepting a pending join request on a Waiting session returns
Ok, sets the opponent, moves the session to InProgress with the creator to
move, records the session id on the opponent's client-registry entry, and any
later decide call on the session fails with `-2` (NotWaiting) — the
Waiting-to-InProgress transition happens exactly once. -/
theorem process_join_request_accept_transition (s : ServerState)
    (game_id rid : Int) (g : Game) (cl : Client)
    (hget : get_game_by_id s game_id = some g)
    (hw : g.state = GameState.GAME_WAITING)
    (hpend : ∃ q ∈ g.join_requests, q.requester_id = rid ∧ q.processed = 0)
    (hclient : get_client_by_id s.clients rid = some cl) :
    ∃ s' g', process_join_request s game_id rid true = (0, s') ∧
      get_game_by_id s' game_id = some g' ∧
      g'.opponent_id = rid ∧
      g'.state = GameState.GAME_IN_PROGRESS ∧
      g'.current_turn = g.creator_id ∧
      get_client_by_id s'.clients rid = some { cl with current_game_id := game_id } ∧
      ∀ (rid2 : Int) (acc2 : Bool),
        process_join_request s' game_id rid2 acc2 = (-2, s') := by
  obtain ⟨h0, hl, hslot, hact⟩ := get_game_by_id_some hget
  obtain ⟨reqs, hmark⟩ := mark_request_isSome hpend 1
  set game2 : Game :=
    { g with
      join_requests := reqs
      opponent_id := rid
      state := GameState.GAME_IN_PROGRESS
      current_turn := g.creator_id } with hgame2
  set s1 : ServerState := setGame s game_id game2 with hs1
  set s2 : ServerState :=
    { s1 with clients := set_current_game s1.clients rid game_id } with hs2
  have hcall : process_join_request s game_id rid true = (0, s2) := by
    unfold process_join_request
    rw [hget]
    dsimp only
    rw [if_neg (by simp [hw])]
    rw [show (if true then (1 : Int) else -1) = 1 from rfl, hmark]
    rfl
  have hg2 : get_game_by_id s2 game_id = some game2 := by
    rw [hs2, get_game_by_id_set_clients, hs1, get_game_by_id_setGame_self h0 hl]
    rw [if_pos (by rw [hgame2]; exact hact)]
  refine ⟨s2, game2, hcall, hg2, rfl, rfl, rfl, ?_, ?_⟩
  · rw [hs2]
    show get_client_by_id (set_current_game s1.clients rid game_id) rid = _
    have hc : s1.clients = s.clients := rfl
    rw [hc, get_client_set_current_game, hclient]
    rfl
  · intro rid2 acc2
    unfold process_join_request
    rw [hg2]
    dsimp only
    rw [if_pos (by decide)]

/-- Session used by the Claim C1 witness: waiting game, creator 1, pending
request from 2, client 2 connected. -/
def c1_game : Game :=
  { id := 0
    grid := init_grid
    state := GameState.GAME_WAITING
    creator_id := 1
    opponent_id := -1
    current_turn := 1
    winner_id := 0
    is_active := true
    join_requests := [⟨2, 0⟩] }

def c1_client : Client := ⟨2, "guest", true, -1⟩

def c1_state : ServerState := ⟨[c1_game], [⟨1, "host", true, 0⟩, c1_client], 1⟩

/-- Claim C1 witness: accepting requester 2 on the concrete waiting session. -/
theorem process_join_request_accept_transition_witness :
    get_game_by_id c1_state 0 = some c1_game ∧
    c1_game.state = GameState.GAME_WAITING ∧
    (∃ q ∈ c1_game.join_requests, q.requester_id = 2 ∧ q.processed = 0) ∧
    get_client_by_id c1_state.clients 2 = some c1_client ∧
    (∃ s' g', process_join_request c1_state 0 2 true = (0, s') ∧
      get_game_by_id s' 0 = some g' ∧
      g'.opponent_id = 2 ∧
      g'.state = GameState.GAME_IN_PROGRESS ∧
      g'.current_turn = c1_game.creator_id ∧
      get_client_by_id s'.clients 2 = some { c1_client with current_game_id := 0 } ∧
      ∀ (rid2 : Int) (acc2 : Bool),
        process_join_request s' 0 rid2 acc2 = (-2, s')) :=
  ⟨by decide, by decide, ⟨⟨2, 0⟩, by decide, by decide⟩, by decide,
    process_join_request_accept_transition c1_state 0 2 c1_game c1_client
      (by decide) (by decide) ⟨⟨2, 0⟩, by decide, by decide⟩ (by decide)⟩


/-! ### Claim C4 -/

/-- Claim C4: rematch succeeds only when the session is Finished (any other
state yields the handler's failure result with the state unchanged); on
success every board cell is reset to Empty, the winner is cleared to `0`
(none), the state returns to InProgress, and the new `current_turn` is the
toggle of the previous `current_turn` value. -/
theorem handle_rematch_spec (s : ServerState) (cid : Int) (cl : Client)
    (g : Game)
    (hclient : get_client_by_id s.clients cid = some cl)
    (hget : get_game_by_id s cl.current_game_id = some g) :
    (g.state ≠ GameState.GAME_FINISHED → handle_rematch s cid = (-2, s)) ∧
    (g.state = GameState.GAME_FINISHED →
      ∃ s' g', handle_rematch s cid = (0, s') ∧
        get_game_by_id s' cl.current_game_id = some g' ∧
        (∀ (r : Fin 6) (c : Fin 7), g'.grid r c = Cell.empty) ∧
        g'.winner_id = 0 ∧
        g'.state = GameState.GAME_IN_PROGRESS ∧
        g'.current_turn =
          (if g.current_turn = g.creator_id then g.opponent_id
           else g.creator_id)) := by
  obtain ⟨h0, hl, hslot, hact⟩ := get_game_by_id_some hget
  constructor
  · intro hne
    unfold handle_rematch
    rw [hclient]
    dsimp only
    rw [if_neg (by omega)]
    rw [hget]
    dsimp only
    rw [if_pos hne]
  · intro hfin
    set gnew : Game :=
      { g with
        grid := init_grid
        state := GameState.GAME_IN_PROGRESS
        winner_id := 0
        current_turn := if g.current_turn == g.creator_id then
          g.opponent_id else g.creator_id } with hgnew
    have hreset : reset_game_for_rematch s cl.current_game_id =
        setGame s cl.current_game_id gnew := by
      unfold reset_game_for_rematch
      rw [hget]
    refine ⟨setGame s cl.current_game_id gnew, gnew, ?_, ?_, ?_, rfl, rfl, ?_⟩
    · unfold handle_rematch
      rw [hclient]
      dsimp only
      rw [if_neg (by omega)]
      rw [hget]
      dsimp only
      rw [if_neg (by simp [hfin]), hreset]
    · rw [get_game_by_id_setGame_self h0 hl]
      rw [if_pos (by exact hact)]
    · intro r c
      rfl
    · show (if g.current_turn == g.creator_id then g.opponent_id
        else g.creator_id) = _
      by_cases hc : g.current_turn = g.creator_id
      · simp [hc]
      · rw [if_neg (by simpa using hc), if_neg hc]

/-- Session used by the Claim C4 witness: finished game, creator 1 beat
opponent 2, `current_turn` stopped on 2. -/
def c4_game : Game :=
  { id := 0
    grid := setCell init_grid 5 3 Cell.player1
    state := GameState.GAME_FINISHED
    creator_id := 1
    opponent_id := 2
    current_turn := 2
    winner_id := 1
    is_active := true
    join_requests := [] }

def c4_client : Client := ⟨1, "host", true, 0⟩

def c4_state : ServerState := ⟨[c4_game], [c4_client, ⟨2, "guest", true, 0⟩], 1⟩

/-- Claim C4 witness: a rematch on the concrete finished session. -/
theorem handle_rematch_spec_witness :
    get_client_by_id c4_state.clients 1 = some c4_client ∧
    get_game_by_id c4_state c4_client.current_game_id = some c4_game ∧
    ((c4_game.state ≠ GameState.GAME_FINISHED →
        handle_rematch c4_state 1 = (-2, c4_state)) ∧
      (c4_game.state = GameState.GAME_FINISHED →
        ∃ s' g', handle_rematch c4_state 1 = (0, s') ∧
          get_game_by_id s' c4_client.current_game_id = some g' ∧
          (∀ (r : Fin 6) (c : Fin 7), g'.grid r c = Cell.empty) ∧
          g'.winner_id = 0 ∧
          g'.state = GameState.GAME_IN_PROGRESS ∧
          g'.current_turn =
            (if c4_game.current_turn = c4_game.creator_id then
              c4_game.opponent_id else c4_game.creator_id))) :=
  ⟨by decide, by decide,
    handle_rematch_spec c4_state 1 c4_client c4_game (by decide) (by decide)⟩


/-! ### Claim C3 -/

/-- Reading a game depends only on the games table. -/
theorem get_game_by_id_congr_games {s t : ServerState} (h : s.games = t.games)
    (gid : Int) : get_game_by_id s gid = get_game_by_id t gid := by
  obtain ⟨gs, cs, gc⟩ := s
  obtain ⟨gt, ct, gct⟩ := t
  simp only at h
  subst h
  rfl

/-- Claim C3: a participant leaving an InProgress session makes the other
participant the winner, finishes the session, and immediately reclaims the
slot (inactive, join requests freed); afterwards the session id resolves to
nothing, any `make_move` on it fails with `-1` (SessionNotFound), and a
rematch through a client still addressing that session id fails because the
session cannot be found. -/
theorem handle_leave_forfeits_and_reclaims (s : ServerState) (cid : Int)
    (cl : Client) (g : Game)
    (hclient : get_client_by_id s.clients cid = some cl)
    (hget : get_game_by_id s cl.current_game_id = some g)
    (hprog : g.state = GameState.GAME_IN_PROGRESS) :
    ∃ gslot,
      (handle_leave s cid).games.get? cl.current_game_id.toNat = some gslot ∧
      gslot.winner_id =
        (if cid = g.creator_id then g.opponent_id else g.creator_id) ∧
      gslot.state = GameState.GAME_FINISHED ∧
      gslot.is_active = false ∧
      gslot.join_requests = [] ∧
      get_game_by_id (handle_leave s cid) cl.current_game_id = none ∧
      (∀ pid col : Int,
        make_move (handle_leave s cid) cl.current_game_id pid col =
          (-1, handle_leave s cid)) ∧
      (∀ (t : ServerState) (x : Int) (cl2 : Client),
        get_client_by_id t.clients x = some cl2 →
        cl2.current_game_id = cl.current_game_id →
        get_game_by_id t cl.current_game_id = none →
        handle_rematch t x = (-2, t)) := by
  obtain ⟨h0, hl, hslot, hact⟩ := get_game_by_id_some hget
  set gfin : Game :=
    { g with
      winner_id := if cid == g.creator_id then g.opponent_id else g.creator_id
      state := GameState.GAME_FINISHED } with hgfin
  set s1 : ServerState := setGame s cl.current_game_id gfin with hs1
  set s2 : ServerState :=
    { s1 with clients := set_current_game s1.clients cid (-1) } with hs2
  set gclean : Game := { gfin with join_requests := [], is_active := false }
    with hgclean
  set s3 : ServerState :=
    { setGame s2 cl.current_game_id gclean with
      clients := (setGame s2 cl.current_game_id gclean).clients.map fun c =>
        if c.current_game_id == cl.current_game_id then
          { c with current_game_id := -1 } else c
      game_count := (setGame s2 cl.current_game_id gclean).game_count - 1 }
    with hs3
  have hre : s2.games.get? cl.current_game_id.toNat = some gfin := by
    rw [hs2]
    show s1.games.get? _ = _
    rw [hs1]
    show (s.games.set cl.current_game_id.toNat gfin).get? _ = _
    rw [List.get?_eq_getElem?]
    exact List.getElem?_set_eq_of_lt _ hl
  have hget2 : get_game_by_id s2 cl.current_game_id = some gfin := by
    rw [hs2, get_game_by_id_set_clients, hs1, get_game_by_id_setGame_self h0 hl]
    rw [if_pos (by exact hact)]
  have hclean : cleanup_game s2 cl.current_game_id = s3 := by
    unfold cleanup_game
    rw [hget2]
  have hleave : handle_leave s cid = s3 := by
    unfold handle_leave
    rw [hclient]
    dsimp only
    rw [if_neg (by omega)]
    rw [hget]
    dsimp only
    rw [if_pos hprog]
    rw [hre]
    dsimp only
    rw [if_pos (Or.inl rfl)]
    exact hclean
  have hlen3 : s3.games.length = s.games.length := by
    rw [hs3]
    show ((s2.games.set _ _).length) = _
    rw [List.length_set, hs2]
    show s1.games.length = _
    rw [hs1]
    show (s.games.set _ _).length = _
    rw [List.length_set]
  have hslot3 : s3.games.get? cl.current_game_id.toNat = some gclean := by
    rw [hs3]
    show (s2.games.set _ _).get? _ = _
    rw [List.get?_eq_getElem?]
    refine List.getElem?_set_eq_of_lt _ ?_
    rw [hs2]
    show cl.current_game_id.toNat < s1.games.length
    rw [hs1]
    show _ < (s.games.set _ _).length
    rw [List.length_set]
    exact hl
  have hl2 : cl.current_game_id.toNat < s2.games.length := by
    rw [hs2]
    show cl.current_game_id.toNat < s1.games.length
    rw [hs1]
    show _ < (s.games.set _ _).length
    rw [List.length_set]
    exact hl
  have hnone : get_game_by_id s3 cl.current_game_id = none := by
    have hcg := get_game_by_id_congr_games
      (s := s3) (t := setGame s2 cl.current_game_id gclean) rfl cl.current_game_id
    rw [hcg, get_game_by_id_setGame_self h0 hl2, if_neg (by simp [hgclean])]
  refine ⟨gclean, by rw [hleave]; exact hslot3, ?_, rfl, rfl, rfl, ?_, ?_, ?_⟩
  · show (if cid == g.creator_id then g.opponent_id else g.creator_id) = _
    by_cases hc : cid = g.creator_id
    · simp [hc]
    · rw [if_neg (by simpa using hc), if_neg hc]
  · rw [hleave]
    exact hnone
  · intro pid col
    rw [hleave]
    unfold make_move
    rw [hnone]
  · intro t x cl2 hcl2 heq hnone_t
    unfold handle_rematch
    rw [hcl2]
    dsimp only
    rw [if_neg (by omega)]
    rw [heq, hnone_t]

/-- Session used by the Claim C3 witness: in-progress game, creator 1,
opponent 2; the opponent leaves. -/
def c3_game : Game :=
  { id := 0
    grid := setCell init_grid 5 3 Cell.player1
    state := GameState.GAME_IN_PROGRESS
    creator_id := 1
    opponent_id := 2
    current_turn := 2
    winner_id := 0
    is_active := true
    join_requests := [] }

def c3_client : Client := ⟨2, "guest", true, 0⟩

def c3_state : ServerState := ⟨[c3_game], [⟨1, "host", true, 0⟩, c3_client], 1⟩

/-- Claim C3 witness: client 2 leaves the concrete in-progress session. -/
theorem handle_leave_forfeits_and_reclaims_witness :
    get_client_by_id c3_state.clients 2 = some c3_client ∧
    get_game_by_id c3_state c3_client.current_game_id = some c3_game ∧
    c3_game.state = GameState.GAME_IN_PROGRESS ∧
    (∃ gslot,
      (handle_leave c3_state 2).games.get? c3_client.current_game_id.toNat =
        some gslot ∧
      gslot.winner_id =
        (if (2 : Int) = c3_game.creator_id then c3_game.opponent_id
         else c3_game.creator_id) ∧
      gslot.state = GameState.GAME_FINISHED ∧
      gslot.is_active = false ∧
      gslot.join_requests = [] ∧
      get_game_by_id (handle_leave c3_state 2) c3_client.current_game_id =
        none ∧
      (∀ pid col : Int,
        make_move (handle_leave c3_state 2) c3_client.current_game_id pid col =
          (-1, handle_leave c3_state 2)) ∧
      (∀ (t : ServerState) (x : Int) (cl2 : Client),
        get_client_by_id t.clients x = some cl2 →
        cl2.current_game_id = c3_client.current_game_id →
        get_game_by_id t c3_client.current_game_id = none →
        handle_rematch t x = (-2, t))) :=
  ⟨by decide, by decide, by decide,
    handle_leave_forfeits_and_reclaims c3_state 2 c3_client c3_game
      (by decide) (by decide) (by decide)⟩


/-! ### Claim C8 -/

/-- Number of pending (`processed == 0`) requests from `rid` — the quantity
the spec's "at most one Pending JoinRequest per distinct requester"
invariant bounds. -/
def pendingCount (l : List JoinRequest) (rid : Int) : Nat :=
  l.countP (fun q => q.requester_id == rid && q.processed == 0)

/-- The per-session invariant: at most one pending request per requester. -/
def pendingUnique (l : List JoinRequest) : Prop :=
  ∀ rid : Int, pendingCount l rid ≤ 1

/-- Marking a request accepted or rejected (`v ≠ 0`) never increases the
number of pending requests of any requester. -/
theorem mark_request_countP_le {l l' : List JoinRequest} {rid v : Int}
    (hv : v ≠ 0) (h : mark_request l rid v = some l') (rid2 : Int) :
    pendingCount l' rid2 ≤ pendingCount l rid2 := by
  induction l generalizing l' with
  | nil => cases h
  | cons q rest ih =>
    unfold mark_request at h
    by_cases hq : (q.requester_id == rid && q.processed == 0) = true
    · rw [if_pos hq] at h
      injection h with h
      subst h
      unfold pendingCount
      rw [List.countP_cons, List.countP_cons]
      have hb : (v == 0) = false := by simpa using hv
      simp [hb]
    · rw [if_neg hq] at h
      cases hmr : mark_request rest rid v with
      | none => rw [hmr] at h; cases h
      | some rest2 =>
        rw [hmr] at h
        injection h with h
        subst h
        unfold pendingCount
        rw [List.countP_cons, List.countP_cons]
        have := ih hmr
        unfold pendingCount at this
        omega

/-- Claim C8: a duplicate pending request is refused with `-4`
(DuplicateRequest); when no pending request from the requester exists (for
example only a rejected one), a new pending request is accepted and the
pending count of the requester becomes exactly one, other requesters
untouched; and both request-mutating operations — `add_join_request` and
`process_join_request` — preserve the at-most-one-pending-per-requester
invariant (the remaining operations leave the request list unchanged or
empty it). -/
theorem join_request_pending_unique (s : ServerState) (gid rid : Int)
    (g : Game)
    (hget : get_game_by_id s gid = some g) :
    (g.state = GameState.GAME_WAITING → g.creator_id ≠ rid →
      1 ≤ pendingCount g.join_requests rid →
      add_join_request s gid rid = (-4, s)) ∧
    (g.state = GameState.GAME_WAITING → g.creator_id ≠ rid →
      pendingCount g.join_requests rid = 0 →
      ∃ s' g', add_join_request s gid rid = (0, s') ∧
        get_game_by_id s' gid = some g' ∧
        g'.join_requests = ⟨rid, 0⟩ :: g.join_requests ∧
        pendingCount g'.join_requests rid = 1 ∧
        (∀ rid2, rid2 ≠ rid → pendingCount g'.join_requests rid2 =
          pendingCount g.join_requests rid2)) ∧
    (pendingUnique g.join_requests →
      ∀ (res : Int) (s' : ServerState) (g' : Game),
        add_join_request s gid rid = (res, s') →
        get_game_by_id s' gid = some g' → pendingUnique g'.join_requests) ∧
    (pendingUnique g.join_requests →
      ∀ (acc : Bool) (res : Int) (s' : ServerState) (g' : Game),
        process_join_request s gid rid acc = (res, s') →
        get_game_by_id s' gid = some g' → pendingUnique g'.join_requests) := by
  obtain ⟨h0, hl, hslot, hact⟩ := get_game_by_id_some hget
  have hcount_any : ∀ l : List JoinRequest,
      (l.any (fun q => q.requester_id == rid && q.processed == 0)) = true ↔
        1 ≤ pendingCount l rid := by
    intro l
    rw [List.any_eq_true]
    unfold pendingCount
    rw [Nat.one_le_iff_ne_zero, Ne, List.countP_eq_zero]
    simp
  refine ⟨?_, ?_, ?_, ?_⟩
  · intro hw hc hpend
    unfold add_join_request
    rw [hget]
    dsimp only
    rw [if_neg (by simp [hw])]
    rw [if_neg (by simp; exact hc)]
    rw [if_pos ((hcount_any g.join_requests).2 hpend)]
  · intro hw hc hzero
    unfold pendingCount at hzero
    have hanyf : (g.join_requests.any
        (fun q => q.requester_id == rid && q.processed == 0)) = false := by
      rw [List.any_eq_false]
      exact List.countP_eq_zero.mp hzero
    have hcall0 : add_join_request s gid rid =
        (0, setGame s gid
          { g with join_requests := ⟨rid, 0⟩ :: g.join_requests }) := by
      unfold add_join_request
      rw [hget]
      dsimp only
      rw [if_neg (by simp [hw])]
      rw [if_neg (by simp; exact hc)]
      rw [if_neg (by rw [hanyf]; exact Bool.false_ne_true)]
    refine ⟨setGame s gid { g with join_requests := ⟨rid, 0⟩ :: g.join_requests },
      { g with join_requests := ⟨rid, 0⟩ :: g.join_requests },
      hcall0, ?_, rfl, ?_, ?_⟩
    · rw [get_game_by_id_setGame_self h0 hl, if_pos (by exact hact)]
    · show pendingCount (⟨rid, 0⟩ :: g.join_requests) rid = 1
      unfold pendingCount
      rw [List.countP_cons]
      simp [hzero]
    · intro rid2 hne
      show pendingCount (⟨rid, 0⟩ :: g.join_requests) rid2 = _
      unfold pendingCount
      rw [List.countP_cons]
      have hf : ((⟨rid, 0⟩ : JoinRequest).requester_id == rid2 &&
          (⟨rid, 0⟩ : JoinRequest).processed == 0) = false := by
        simp
        intro h
        exact absurd h.symm hne
      simp [hf]
      exact fun h => hne h.symm
  · intro huniq res s' g' hcall hget2
    unfold add_join_request at hcall
    rw [hget] at hcall
    dsimp only at hcall
    split at hcall
    · injection hcall with h1 h2
      subst h2
      rw [hget] at hget2
      injection hget2 with h
      exact h ▸ huniq
    · split at hcall
      · injection hcall with h1 h2
        subst h2
        rw [hget] at hget2
        injection hget2 with h
        exact h ▸ huniq
      · split at hcall
        · injection hcall with h1 h2
          subst h2
          rw [hget] at hget2
          injection hget2 with h
          exact h ▸ huniq
        · rename_i hany
          injection hcall with h1 h2
          subst h2
          rw [get_game_by_id_setGame_self h0 hl, if_pos (by exact hact)] at hget2
          injection hget2 with h
          subst h
          intro rid2
          show pendingCount (⟨rid, 0⟩ :: g.join_requests) rid2 ≤ 1
          by_cases h2 : rid2 = rid
          · subst h2
            unfold pendingCount
            rw [List.countP_cons]
            have hzero : g.join_requests.countP
                (fun q => q.requester_id == rid2 && q.processed == 0) = 0 := by
              rw [List.countP_eq_zero]
              intro q hq hpq
              exact hany (List.any_eq_true.mpr ⟨q, hq, hpq⟩)
            simp [hzero]
          · unfold pendingCount
            rw [List.countP_cons]
            have hf : ((⟨rid, 0⟩ : JoinRequest).requester_id == rid2 &&
                (⟨rid, 0⟩ : JoinRequest).processed == 0) = false := by
              simp
              intro h
              exact absurd h.symm h2
            simp only [hf, Bool.false_eq_true, if_false, Nat.add_zero]
            exact huniq rid2
  · intro huniq acc res s' g' hcall hget2
    unfold process_join_request at hcall
    rw [hget] at hcall
    dsimp only at hcall
    split at hcall
    · injection hcall with h1 h2
      subst h2
      rw [hget] at hget2
      injection hget2 with h
      exact h ▸ huniq
    · cases hmr : mark_request g.join_requests rid (if acc then 1 else -1) with
      | none =>
        rw [hmr] at hcall
        injection hcall with h1 h2
        subst h2
        rw [hget] at hget2
        injection hget2 with h
        exact h ▸ huniq
      | some reqs =>
        rw [hmr] at hcall
        dsimp only at hcall
        have hle : ∀ rid2 : Int,
            pendingCount reqs rid2 ≤ pendingCount g.join_requests rid2 :=
          fun rid2 =>
            mark_request_countP_le (by cases acc <;> decide) hmr rid2
        split at hcall
        · injection hcall with h1 h2
          subst h2
          rw [get_game_by_id_set_clients, get_game_by_id_setGame_self h0 hl,
            if_pos (by exact hact)] at hget2
          injection hget2 with h
          subst h
          intro rid2
          exact le_trans (hle rid2) (huniq rid2)
        · injection hcall with h1 h2
          subst h2
          rw [get_game_by_id_setGame_self h0 hl, if_pos (by exact hact)] at hget2
          injection hget2 with h
          subst h
          intro rid2
          exact le_trans (hle rid2) (huniq rid2)

/-- Session used by the Claim C8 witness: waiting game whose request list
holds one rejected request from client 2. -/
def c8_game : Game :=
  { id := 0
    grid := init_grid
    state := GameState.GAME_WAITING
    creator_id := 1
    opponent_id := -1
    current_turn := 1
    winner_id := 0
    is_active := true
    join_requests := [⟨2, -1⟩] }

def c8_state : ServerState := ⟨[c8_game], [], 1⟩

/-- Claim C8 witness: resubmission after a rejection, on the concrete
session. -/
theorem join_request_pending_unique_witness :
    get_game_by_id c8_state 0 = some c8_game ∧
    ((c8_game.state = GameState.GAME_WAITING → c8_game.creator_id ≠ 2 →
        1 ≤ pendingCount c8_game.join_requests 2 →
        add_join_request c8_state 0 2 = (-4, c8_state)) ∧
      (c8_game.state = GameState.GAME_WAITING → c8_game.creator_id ≠ 2 →
        pendingCount c8_game.join_requests 2 = 0 →
        ∃ s' g', add_join_request c8_state 0 2 = (0, s') ∧
          get_game_by_id s' 0 = some g' ∧
          g'.join_requests = ⟨2, 0⟩ :: c8_game.join_requests ∧
          pendingCount g'.join_requests 2 = 1 ∧
          (∀ rid2, rid2 ≠ 2 → pendingCount g'.join_requests rid2 =
            pendingCount c8_game.join_requests rid2)) ∧
      (pendingUnique c8_game.join_requests →
        ∀ (res : Int) (s' : ServerState) (g' : Game),
          add_join_request c8_state 0 2 = (res, s') →
          get_game_by_id s' 0 = some g' → pendingUnique g'.join_requests) ∧
      (pendingUnique c8_game.join_requests →
        ∀ (acc : Bool) (res : Int) (s' : ServerState) (g' : Game),
          process_join_request c8_state 0 2 acc = (res, s') →
          get_game_by_id s' 0 = some g' → pendingUnique g'.join_requests)) :=
  ⟨by decide, join_request_pending_unique c8_state 0 2 c8_game (by decide)⟩


/-! ### Claim C10 -/

/-- Claim C10: when a single move both completes a four-in-a-row for the
mover and fills the last empty cell, the win outcome prevails: `make_move`
takes the `check_winner` branch — evaluated before `is_grid_full` — and
finishes the game with `winner_id = pid`, never the draw value `-1`, even
though `is_grid_full` holds on the post-drop grid. -/
theorem make_move_win_precedes_draw (s : ServerState)
    (gid pid col row : Int) (g : Game) (g2 : Grid) (piece : Cell)
    (hget : get_game_by_id s gid = some g)
    (hprog : g.state = GameState.GAME_IN_PROGRESS)
    (hturn : g.current_turn = pid)
    (hpiece : piece =
      (if pid == g.creator_id then Cell.player1 else Cell.player2))
    (hdrop : drop_piece g.grid col piece = (row, g2))
    (hrow : 0 ≤ row)
    (hwin : check_winner g2 piece = true)
    (_hfull : is_grid_full g2 = true) :
    ∃ s' g', make_move s gid pid col = (0, s') ∧
      get_game_by_id s' gid = some g' ∧
      g'.state = GameState.GAME_FINISHED ∧
      g'.winner_id = pid := by
  obtain ⟨h0, hl, hslot, hact⟩ := get_game_by_id_some hget
  subst hpiece
  have hcall : make_move s gid pid col =
      (0, setGame s gid
        { g with
          grid := g2
          winner_id := pid
          state := GameState.GAME_FINISHED }) := by
    unfold make_move
    rw [hget]
    dsimp only
    rw [if_neg (by simp [hprog])]
    rw [if_neg (by simp [hturn])]
    rw [hdrop]
    dsimp only
    rw [if_neg (by omega)]
    rw [if_pos hwin]
  refine ⟨setGame s gid
      { g with grid := g2, winner_id := pid, state := GameState.GAME_FINISHED },
    { g with grid := g2, winner_id := pid, state := GameState.GAME_FINISHED },
    hcall, ?_, rfl, rfl⟩
  rw [get_game_by_id_setGame_self h0 hl, if_pos (by exact hact)]

/-- Grid used by the Claim C10 witness: every cell holds `PLAYER1` except
the top-left corner, which is empty. -/
def c10_grid : Grid :=
  fun r c => if r = 0 ∧ c = 0 then Cell.empty else Cell.player1

/-- The same grid after the final drop: completely full of `PLAYER1`. -/
def c10_grid2 : Grid := fun _ _ => Cell.player1

def c10_game : Game :=
  { id := 0
    grid := c10_grid
    state := GameState.GAME_IN_PROGRESS
    creator_id := 1
    opponent_id := 2
    current_turn := 1
    winner_id := 0
    is_active := true
    join_requests := [] }

def c10_state : ServerState := ⟨[c10_game], [], 1⟩

/-- Claim C10 witness: the final drop in column 0 simultaneously wins and
fills the grid; the outcome is a win for player 1, not a draw. -/
theorem make_move_win_precedes_draw_witness :
    get_game_by_id c10_state 0 = some c10_game ∧
    c10_game.state = GameState.GAME_IN_PROGRESS ∧
    c10_game.current_turn = 1 ∧
    Cell.player1 =
      (if (1 : Int) == c10_game.creator_id then Cell.player1
       else Cell.player2) ∧
    drop_piece c10_game.grid 0 Cell.player1 = (0, c10_grid2) ∧
    (0 : Int) ≤ 0 ∧
    check_winner c10_grid2 Cell.player1 = true ∧
    is_grid_full c10_grid2 = true ∧
    (∃ s' g', make_move c10_state 0 1 0 = (0, s') ∧
      get_game_by_id s' 0 = some g' ∧
      g'.state = GameState.GAME_FINISHED ∧
      g'.winner_id = 1) :=
  ⟨by decide, by decide, by decide, by decide, by decide, by decide, by decide,
    by decide,
    make_move_win_precedes_draw c10_state 0 1 0 0 c10_game c10_grid2
      Cell.player1 (by decide) (by decide) (by decide) (by decide) (by decide)
      (by decide) (by decide) (by decide)⟩


/-! ### Claim C7 -/

/-- The bottom-up scan of `drop_piece` finds exactly the bottom-most empty
row: if row `r` of column `c` is empty and every row below it (larger index)
is occupied, the scan stops at `r`. -/
theorem lowestEmpty_eq_some {g : Grid} {c : Fin 7} (r : Fin 6)
    (hemp : g r c = Cell.empty)
    (habove : ∀ r2 : Fin 6, r < r2 → g r2 c ≠ Cell.empty) :
    lowestEmpty g c = some r := by
  unfold lowestEmpty
  have h6 : (List.finRange 6).reverse = [5, 4, 3, 2, 1, 0] := by decide
  rw [h6]
  fin_cases r
  · rw [
      List.find?_cons_of_neg _ (by simp [habove 5 (by decide)]),
      List.find?_cons_of_neg _ (by simp [habove 4 (by decide)]),
      List.find?_cons_of_neg _ (by simp [habove 3 (by decide)]),
      List.find?_cons_of_neg _ (by simp [habove 2 (by decide)]),
      List.find?_cons_of_neg _ (by simp [habove 1 (by decide)]),
      List.find?_cons_of_pos _ (by simp [show g 0 c = Cell.empty from hemp])]
    rfl
  · rw [
      List.find?_cons_of_neg _ (by simp [habove 5 (by decide)]),
      List.find?_cons_of_neg _ (by simp [habove 4 (by decide)]),
      List.find?_cons_of_neg _ (by simp [habove 3 (by decide)]),
      List.find?_cons_of_neg _ (by simp [habove 2 (by decide)]),
      List.find?_cons_of_pos _ (by simp [show g 1 c = Cell.empty from hemp])]
    rfl
  · rw [
      List.find?_cons_of_neg _ (by simp [habove 5 (by decide)]),
      List.find?_cons_of_neg _ (by simp [habove 4 (by decide)]),
      List.find?_cons_of_neg _ (by simp [habove 3 (by decide)]),
      List.find?_cons_of_pos _ (by simp [show g 2 c = Cell.empty from hemp])]
    rfl
  · rw [
      List.find?_cons_of_neg _ (by simp [habove 5 (by decide)]),
      List.find?_cons_of_neg _ (by simp [habove 4 (by decide)]),
      List.find?_cons_of_pos _ (by simp [show g 3 c = Cell.empty from hemp])]
    rfl
  · rw [
      List.find?_cons_of_neg _ (by simp [habove 5 (by decide)]),
      List.find?_cons_of_pos _ (by simp [show g 4 c = Cell.empty from hemp])]
    rfl
  · rw [
      List.find?_cons_of_pos _ (by simp [show g 5 c = Cell.empty from hemp])]
    rfl

/-- A column with no empty cell makes the scan of `drop_piece` fail. -/
theorem lowestEmpty_eq_none {g : Grid} {c : Fin 7}
    (hfull : ∀ r : Fin 6, g r c ≠ Cell.empty) :
    lowestEmpty g c = none := by
  unfold lowestEmpty
  rw [List.find?_eq_none]
  intro r hr
  simp [hfull r]

/-- Claim C7: for an in-range column, `drop_piece` places the piece in the
bottom-most empty cell of the column and returns that row index, changing no
other cell — hence repeated drops fill the column bottom-up in order; when
the column has no empty cell, or the column index is out of range, it
returns `-1` and the grid is unchanged (so the seventh drop into a full
column fails). -/
theorem drop_piece_spec (g : Grid) (piece : Cell) :
    (∀ (cf : Fin 7) (r : Fin 6),
      g r cf = Cell.empty →
      (∀ r2 : Fin 6, r < r2 → g r2 cf ≠ Cell.empty) →
      drop_piece g ((cf : Nat) : Int) piece =
          (((r : Nat) : Int), setCell g r cf piece) ∧
        setCell g r cf piece r cf = piece ∧
        (∀ (r2 : Fin 6) (c2 : Fin 7), ¬(r2 = r ∧ c2 = cf) →
          setCell g r cf piece r2 c2 = g r2 c2)) ∧
    (∀ cf : Fin 7, (∀ r : Fin 6, g r cf ≠ Cell.empty) →
      drop_piece g ((cf : Nat) : Int) piece = (-1, g)) ∧
    (∀ col : Int, ¬(0 ≤ col ∧ col < 7) → drop_piece g col piece = (-1, g)) := by
  have hcf : ∀ cf : Fin 7,
      (⟨(((cf : Nat) : Int)).toNat, by omega⟩ : Fin 7) = cf := by
    intro cf
    ext
    simp
  refine ⟨?_, ?_, ?_⟩
  · intro cf r hemp habove
    refine ⟨?_, ?_, ?_⟩
    · unfold drop_piece
      rw [dif_pos ⟨by positivity, by exact_mod_cast cf.isLt⟩]
      dsimp only
      rw [hcf cf, lowestEmpty_eq_some r hemp habove]
    · unfold setCell
      simp
    · intro r2 c2 hne
      unfold setCell
      rw [if_neg hne]
  · intro cf hfull
    unfold drop_piece
    rw [dif_pos ⟨by positivity, by exact_mod_cast cf.isLt⟩]
    dsimp only
    rw [hcf cf, lowestEmpty_eq_none hfull]
  · intro col hout
    unfold drop_piece
    rw [dif_neg hout]

/-- Grid used by the Claim C7 witness full-column case: every cell occupied. -/
def c7_grid : Grid := fun _ _ => Cell.player2

/-- Claim C7 witness: a drop into empty column 3, a failed drop into a full
column, and a failed drop at the out-of-range column 9. -/
theorem drop_piece_spec_witness :
    init_grid 5 3 = Cell.empty ∧
    (∀ r2 : Fin 6, (5 : Fin 6) < r2 → init_grid r2 3 ≠ Cell.empty) ∧
    (drop_piece init_grid (((3 : Fin 7) : Nat) : Int) Cell.player1 =
        ((((5 : Fin 6) : Nat) : Int), setCell init_grid 5 3 Cell.player1) ∧
      setCell init_grid 5 3 Cell.player1 5 3 = Cell.player1 ∧
      (∀ (r2 : Fin 6) (c2 : Fin 7), ¬(r2 = 5 ∧ c2 = 3) →
        setCell init_grid 5 3 Cell.player1 r2 c2 = init_grid r2 c2)) ∧
    (∀ r : Fin 6, c7_grid r 2 ≠ Cell.empty) ∧
    drop_piece c7_grid (((2 : Fin 7) : Nat) : Int) Cell.player1 =
      (-1, c7_grid) ∧
    ¬((0 : Int) ≤ 9 ∧ (9 : Int) < 7) ∧
    drop_piece init_grid 9 Cell.player1 = (-1, init_grid) :=
  ⟨by decide, by decide,
    (drop_piece_spec init_grid Cell.player1).1 3 5 (by decide) (by decide),
    by decide,
    (drop_piece_spec c7_grid Cell.player1).2.1 2 (by decide),
    by decide,
    (drop_piece_spec init_grid Cell.player1).2.2 9 (by decide)⟩


/-! ### Claim C6 -/

/-- The counting loop of `check_direction` reaches `n` exactly when all `n`
stepped cells are inside the grid and hold the piece: the count is the length
of the matching prefix, cut short by the first mismatch or out-of-bounds
cell. -/
theorem countRun_ge_iff (g : Grid) (p : Cell) (dr dc : Int) :
    ∀ (n : Nat) (r c : Int),
      n ≤ countRun g p dr dc r c n ↔
        ∀ i : Nat, i < n → gridGet g (r + i * dr) (c + i * dc) = some p := by
  intro n
  induction n with
  | zero =>
    intro r c
    simp [countRun]
  | succ n ih =>
    intro r c
    have hunf : countRun g p dr dc r c (n + 1) =
        if gridGet g r c = some p then
          countRun g p dr dc (r + dr) (c + dc) n + 1
        else 0 := rfl
    by_cases h : gridGet g r c = some p
    · rw [hunf, if_pos h]
      constructor
      · intro hle i hi
        cases i with
        | zero =>
          simpa using h
        | succ i =>
          have hstep := (ih (r + dr) (c + dc)).mp (by omega) i (by omega)
          have harith : r + dr + (i : Int) * dr = r + ((i : Nat) + 1 : Nat) * dr ∧
              c + dc + (i : Int) * dc = c + ((i : Nat) + 1 : Nat) * dc := by
            constructor <;> push_cast <;> ring
          rw [harith.1, harith.2] at hstep
          exact hstep
      · intro hall
        have hrest : n ≤ countRun g p dr dc (r + dr) (c + dc) n := by
          rw [ih]
          intro i hi
          have := hall (i + 1) (by omega)
          have harith : r + ((i : Nat) + 1 : Nat) * dr = r + dr + (i : Int) * dr ∧
              c + ((i : Nat) + 1 : Nat) * dc = c + dc + (i : Int) * dc := by
            constructor <;> push_cast <;> ring
          rw [harith.1, harith.2] at this
          exact this
        omega
    · rw [hunf, if_neg h]
      constructor
      · intro hle
        omega
      · intro hall
        exact absurd (by simpa using hall 0 (by omega)) h

/-- Source `check_direction` succeeds exactly on a complete four-cell run
from the origin in the given direction. -/
theorem check_direction_iff (g : Grid) (r c dr dc : Int) (p : Cell) :
    check_direction g r c dr dc p = true ↔
      ∀ i : Nat, i < 4 → gridGet g (r + i * dr) (c + i * dc) = some p := by
  unfold check_direction
  rw [decide_eq_true_iff]
  exact countRun_ge_iff g p dr dc 4 r c

/-- Four consecutive cells starting at `(r, c)` and stepping by `(dr, dc)`,
all inside the 6×7 grid and all holding `p`. -/
def runFrom (g : Grid) (p : Cell) (r c dr dc : Int) : Prop :=
  ∀ i : Nat, i < 4 → gridGet g (r + i * dr) (c + i * dc) = some p

/-- Statement of the claim's run property, written from the spec's words:
four consecutive cells aligned horizontally (`(0, ±1)`), vertically
(`(±1, 0)`), or along either diagonal (`(±1, ±1)`), all within bounds and
each holding exactly `p`.  All eight traversal directions are admitted, so
every four-in-a-row is described regardless of which end it is read from. -/
def specHasRun (g : Grid) (p : Cell) : Prop :=
  ∃ r c dr dc : Int,
    ((dr, dc) = (0, 1) ∨ (dr, dc) = (0, -1) ∨
     (dr, dc) = (1, 0) ∨ (dr, dc) = (-1, 0) ∨
     (dr, dc) = (1, 1) ∨ (dr, dc) = (-1, -1) ∨
     (dr, dc) = (1, -1) ∨ (dr, dc) = (-1, 1)) ∧
    runFrom g p r c dr dc

/-- A run read from one end is a run read from the other end with the
direction negated. -/
theorem runFrom_reverse {g : Grid} {p : Cell} {r c dr dc : Int}
    (h : runFrom g p r c dr dc) :
    runFrom g p (r + 3 * dr) (c + 3 * dc) (-dr) (-dc) := by
  intro i hi
  have := h (3 - i) (by omega)
  have harith : r + ((3 - i : Nat) : Int) * dr = r + 3 * dr + (i : Int) * (-dr) ∧
      c + ((3 - i : Nat) : Int) * dc = c + 3 * dc + (i : Int) * (-dc) := by
    have hcast : ((3 - i : Nat) : Int) = 3 - (i : Int) := by omega
    rw [hcast]
    constructor <;> ring
  rw [harith.1, harith.2] at this
  exact this

/-- Claim C6: `check_winner` returns true if and only if the grid contains
four consecutive cells, aligned horizontally, vertically or along either
diagonal, all inside the 6×7 bounds and all holding exactly the queried
piece — the one-sided four-direction scan from every origin misses no such
run (every run is found from the end that makes its step vector east, south,
south-east or south-west) and never reports a run that mixes pieces or
leaves the grid. -/
theorem check_winner_iff_specHasRun (g : Grid) (p : Cell) :
    check_winner g p = true ↔ specHasRun g p := by
  constructor
  · intro h
    unfold check_winner at h
    rw [List.any_eq_true] at h
    obtain ⟨r, hrm, hr⟩ := h
    rw [List.any_eq_true] at hr
    obtain ⟨c, hcm, hc⟩ := hr
    simp only [Bool.or_eq_true] at hc
    rcases hc with ((h1 | h2) | h3) | h4
    · exact ⟨(r : Nat), (c : Nat), 0, 1, by simp,
        (check_direction_iff g (r : Nat) (c : Nat) 0 1 p).mp h1⟩
    · exact ⟨(r : Nat), (c : Nat), 1, 0, by simp,
        (check_direction_iff g (r : Nat) (c : Nat) 1 0 p).mp h2⟩
    · exact ⟨(r : Nat), (c : Nat), 1, 1, by simp,
        (check_direction_iff g (r : Nat) (c : Nat) 1 1 p).mp h3⟩
    · exact ⟨(r : Nat), (c : Nat), 1, -1, by simp,
        (check_direction_iff g (r : Nat) (c : Nat) 1 (-1) p).mp h4⟩
  · intro h
    obtain ⟨r, c, dr, dc, hdir, hrun⟩ := h
    have hcanon : ∃ r2 c2 dr2 dc2 : Int,
        ((dr2, dc2) = (0, 1) ∨ (dr2, dc2) = (1, 0) ∨
         (dr2, dc2) = (1, 1) ∨ (dr2, dc2) = (1, -1)) ∧
        runFrom g p r2 c2 dr2 dc2 := by
      rcases hdir with hd | hd | hd | hd | hd | hd | hd | hd <;>
        rw [Prod.mk.injEq] at hd <;>
        obtain ⟨hd1, hd2⟩ := hd <;> subst hd1 <;> subst hd2
      · exact ⟨r, c, 0, 1, by simp, hrun⟩
      · exact ⟨r + 3 * 0, c + 3 * (-1), 0, 1, by simp, by
          have := runFrom_reverse hrun
          simpa using this⟩
      · exact ⟨r, c, 1, 0, by simp, hrun⟩
      · exact ⟨r + 3 * (-1), c + 3 * 0, 1, 0, by simp, by
          have := runFrom_reverse hrun
          simpa using this⟩
      · exact ⟨r, c, 1, 1, by simp, hrun⟩
      · exact ⟨r + 3 * (-1), c + 3 * (-1), 1, 1, by simp, by
          have := runFrom_reverse hrun
          simpa using this⟩
      · exact ⟨r, c, 1, -1, by simp, hrun⟩
      · exact ⟨r + 3 * (-1), c + 3 * 1, 1, -1, by simp, by
          have := runFrom_reverse hrun
          simpa using this⟩
    obtain ⟨r2, c2, dr2, dc2, hdir2, hrun2⟩ := hcanon
    have h0 := hrun2 0 (by omega)
    simp only [Nat.cast_zero, zero_mul, add_zero] at h0
    have hb : 0 ≤ r2 ∧ r2 < 6 ∧ 0 ≤ c2 ∧ c2 < 7 := by
      by_contra hnb
      unfold gridGet at h0
      rw [dif_neg hnb] at h0
      cases h0
    have hrf : (((⟨r2.toNat, by omega⟩ : Fin 6) : Nat) : Int) = r2 := by
      simp
      omega
    have hcf : (((⟨c2.toNat, by omega⟩ : Fin 7) : Nat) : Int) = c2 := by
      simp
      omega
    unfold check_winner
    rw [List.any_eq_true]
    refine ⟨⟨r2.toNat, by omega⟩, List.mem_finRange _, ?_⟩
    rw [List.any_eq_true]
    refine ⟨⟨c2.toNat, by omega⟩, List.mem_finRange _, ?_⟩
    simp only [Bool.or_eq_true]
    rw [hrf, hcf]
    rcases hdir2 with hd | hd | hd | hd <;>
      rw [Prod.mk.injEq] at hd <;>
      obtain ⟨hd1, hd2⟩ := hd <;> subst hd1 <;> subst hd2
    · exact Or.inl (Or.inl (Or.inl ((check_direction_iff g r2 c2 0 1 p).mpr hrun2)))
    · exact Or.inl (Or.inl (Or.inr ((check_direction_iff g r2 c2 1 0 p).mpr hrun2)))
    · exact Or.inl (Or.inr ((check_direction_iff g r2 c2 1 1 p).mpr hrun2))
    · exact Or.inr ((check_direction_iff g r2 c2 1 (-1) p).mpr hrun2)

end Forza4
